import Mathlib

/-!
# Verification of the SIMS pricing/margin core

Shallow embedding of the computational core of the SIMS repository:

* `calculateProductMargins` from `frontend/src/utils/calculations.ts`
  (product margin / pricing calculator);
* the print-queue reorder endpoint `POST /api/print-queue/reorder`
  from `src/server.ts`;
* the settings persistence round trip
  (`fetchSettings` / `updateSettings` in the frontend API client and
  `PUT /api/settings` in `src/server.ts`).

Numbers are modelled as rationals (`ℚ`); JavaScript optional / nullable
fields are modelled as `Option ℚ`, and JavaScript's falsy coalescing
`x || d` (which treats `0`, `null` and `undefined` alike) is translated
explicitly at each use site.
-/

namespace SIMS

/-- Settings snapshot, from the frontend `Settings` interface
(`spool_weight` and `filament_markup` exist in the interface but are not
read by the calculator). -/
structure Settings where
  spool_weight : ℚ
  filament_markup : ℚ
  hourly_rate : ℚ
  wear_tear_markup : ℚ
  platform_fees : ℚ
  filament_spool_price : ℚ
  desired_profit_margin : ℚ
  packaging_cost : ℚ
  deriving Repr, DecidableEq

/-- One filament association of a product, as read by the calculator:
`filament_usage_amount` (grams) and the filament's per-kg `cost`, both of
which may be absent (`none` models JS `null`/`undefined`). -/
structure ProductFilament where
  filament_usage_amount : Option ℚ
  cost : Option ℚ
  deriving Repr, DecidableEq

/-- The product fields read by `calculateProductMargins`.  `filaments`
is `none` when the JS field is `null`/`undefined`. -/
structure Product where
  print_prep_time : ℚ
  post_processing_time : ℚ
  additional_parts_cost : ℚ
  list_price : ℚ
  filament_used : ℚ
  filaments : Option (List ProductFilament)
  deriving Repr, DecidableEq

/-- The derived financial fields produced by `calculateProductMargins`
(the JS function also echoes the product's own fields; those are dropped
here). -/
structure ProductWithCalculations where
  filament_used : ℚ
  labor_cost : ℚ
  filament_cost : ℚ
  wear_tear_cost : ℚ
  total_cost : ℚ
  selling_price : ℚ
  platform_fee_amount : ℚ
  gross_profit : ℚ
  profit_margin : ℚ
  suggested_price : ℚ
  deriving Repr, DecidableEq

/-- `filament.filament_usage_amount || 0`: JS `||` yields the right
operand when the left is falsy (`0`, `null`, `undefined`). -/
def amountOrZero (f : ProductFilament) : ℚ :=
  match f.filament_usage_amount with
  | none => 0
  | some a => if a = 0 then 0 else a

/-- `filament.cost || settings.filament_spool_price`: an absent cost
(`null`/`undefined`) *and* an explicit cost of `0` both fall back to the
global spool price, because JS `||` treats `0` as falsy. -/
def costOrFallback (settings : Settings) (f : ProductFilament) : ℚ :=
  match f.cost with
  | none => settings.filament_spool_price
  | some c => if c = 0 then settings.filament_spool_price else c

/-- The `forEach` accumulation over `product.filaments`: running totals
`(totalFilamentUsed, totalFilamentCost)`. -/
def filamentTotals (settings : Settings) (fs : List ProductFilament) : ℚ × ℚ :=
  fs.foldl
    (fun acc f =>
      (acc.1 + amountOrZero f,
       acc.2 + (amountOrZero f / 1000) * costOrFallback settings f))
    (0, 0)

/-- Shallow embedding of `calculateProductMargins`
(`frontend/src/utils/calculations.ts`), step for step. -/
def calculateProductMargins (product : Product) (settings : Settings) :
    ProductWithCalculations :=
  let totalMinutes := product.print_prep_time + product.post_processing_time
  let laborCost := (totalMinutes / 60) * settings.hourly_rate
  let filamentPair :=
    match product.filaments with
    | some fs =>
        if fs.length > 0 then
          filamentTotals settings fs
        else
          (product.filament_used,
           (product.filament_used / 1000) * settings.filament_spool_price)
    | none =>
        (product.filament_used,
         (product.filament_used / 1000) * settings.filament_spool_price)
  let totalFilamentUsed := filamentPair.1
  let totalFilamentCost := filamentPair.2
  let wearTearCost := totalFilamentCost * (settings.wear_tear_markup / 100)
  let totalCost := laborCost + totalFilamentCost + wearTearCost +
    product.additional_parts_cost + settings.packaging_cost
  let platformFeePercent := settings.platform_fees / 100
  let desiredMarginDecimal := settings.desired_profit_margin / 100
  let suggestedPrice := totalCost / (1 - desiredMarginDecimal - platformFeePercent)
  let sellingPrice := if product.list_price > 0 then product.list_price else suggestedPrice
  let platformFeeAmount := sellingPrice * (settings.platform_fees / 100)
  let grossProfit := sellingPrice - totalCost - platformFeeAmount
  let profitMargin := if sellingPrice > 0 then (grossProfit / sellingPrice) * 100 else 0
  { filament_used := totalFilamentUsed
    labor_cost := laborCost
    filament_cost := totalFilamentCost
    wear_tear_cost := wearTearCost
    total_cost := totalCost
    selling_price := sellingPrice
    platform_fee_amount := platformFeeAmount
    gross_profit := grossProfit
    profit_margin := profitMargin
    suggested_price := suggestedPrice }

/-- A concrete product / settings pair, used as evaluation witness input
(the worked example of the spec, §8). -/
def exampleSettings : Settings :=
  { spool_weight := 1000, filament_markup := 20, hourly_rate := 20,
    wear_tear_markup := 5, platform_fees := 7, filament_spool_price := 18,
    desired_profit_margin := 55, packaging_cost := 1/2 }

/-- Example product: 30 min prep, 15 min post, one 100 g filament usage at
the fallback cost, no list price. -/
def exampleProduct : Product :=
  { print_prep_time := 30, post_processing_time := 15,
    additional_parts_cost := 1, list_price := 0, filament_used := 0,
    filaments := some [{ filament_usage_amount := some 100, cost := none }] }

/-- A product all of whose cost inputs are zero. -/
def zeroProduct : Product :=
  { print_prep_time := 0, post_processing_time := 0,
    additional_parts_cost := 0, list_price := 0, filament_used := 0,
    filaments := some [] }

/-- A settings snapshot whose margin configuration is unachievable:
desired margin 60% plus platform fees 60% exceeds 100%. -/
def badSettings : Settings :=
  { exampleSettings with desired_profit_margin := 60, platform_fees := 60 }

/-! ## Print queue reordering (`POST /api/print-queue/reorder`) -/

/-- One row of the `print_queue` table, restricted to the columns the
reorder endpoint touches: primary key `id` and integer `position`. -/
structure QueueItem where
  id : ℤ
  position : ℤ
  deriving Repr, DecidableEq

/-- The endpoint's existence-check loop: scan the requested ids in order
and report the first one with no matching `print_queue` row (`SELECT 1
FROM print_queue WHERE id = ?`), or `none` when all exist. -/
def firstMissing (queue : List QueueItem) : List ℤ → Option ℤ
  | [] => none
  | id :: rest =>
      if queue.any (fun q => q.id == id) then firstMissing queue rest
      else some id

/-- One `UPDATE print_queue SET position = ? WHERE id = ?`. -/
def updateOne (queue : List QueueItem) (pos : ℤ) (id : ℤ) : List QueueItem :=
  queue.map (fun q => if q.id = id then { q with position := pos } else q)

/-- The endpoint's update loop: `for i in 0..len-1: UPDATE ... SET
position = i WHERE id = items[i].id`, started at index `i`. -/
def applyUpdates (queue : List QueueItem) (i : ℕ) : List ℤ → List QueueItem
  | [] => queue
  | id :: rest => applyUpdates (updateOne queue (i : ℤ) id) (i + 1) rest

/-- Result of the reorder endpoint: the resulting table state and an
optional error naming a missing id (HTTP 400 after `ROLLBACK`). -/
structure ReorderResult where
  queue : List QueueItem
  error : Option ℤ
  deriving Repr, DecidableEq

/-- Shallow embedding of `POST /api/print-queue/reorder`
(`src/server.ts`): validate every id first; on the first missing id roll
back (no row changed) and report it; otherwise apply all position
updates in list order and commit. -/
def reorder (queue : List QueueItem) (ids : List ℤ) : ReorderResult :=
  match firstMissing queue ids with
  | some badId => { queue := queue, error := some badId }
  | none => { queue := applyUpdates queue 0 ids, error := none }

/-- First index of `x` in `l` (`l.length` when absent); used only to
state position properties of the reorder endpoint. -/
def firstIdx (x : ℤ) : List ℤ → ℕ
  | [] => 0
  | y :: ys => if y = x then 0 else firstIdx x ys + 1

/-- A concrete three-row queue used as witness input. -/
def demoQueue : List QueueItem :=
  [{ id := 1, position := 0 }, { id := 2, position := 1 },
   { id := 3, position := 2 }]

/-! ## Settings persistence (`PUT /api/settings`, `fetchSettings`,
`updateSettings`)

A JS string travelling through the settings pipeline is abstracted by
the number it denotes: `some q` is a string that `Number` and
`parseFloat` both parse as `q` (JS number-to-string conversion is
round-trip exact for finite numbers), and `none` a non-numeric string
(parses as `NaN`). -/

/-- Abstract JS string value in the settings pipeline. -/
abbrev JStr := Option ℚ

/-- `validateNumber(value, defaultValue)` from `src/utils/sanitize.ts`:
`Number(value)` when that is not `NaN`, else the default. -/
def validateNumber (value : JStr) (defaultValue : ℚ) : ℚ :=
  match value with
  | some num => num
  | none => defaultValue

/-- `num.toString()` for a finite number: a string parsing back to the
same number. -/
def numToString (q : ℚ) : JStr := some q

/-- The client `updateSettings` body encoding:
`value === 0 ? '0' : value.toString()`. -/
def encodeSetting (q : ℚ) : JStr := if q = 0 then some 0 else numToString q

/-- `parseFloat(value) || 0` in the client `fetchSettings`: a `NaN`
parse, like a parsed `0`, yields `0`. -/
def parseFloatOrZero (s : JStr) : ℚ :=
  match s with
  | some q => if q = 0 then 0 else q
  | none => 0

/-- `UPDATE settings SET value = ? WHERE key = ?`: rewrites every row
holding the key; a missing key updates nothing. -/
def dbUpdateSetting (store : List (String × JStr)) (key : String)
    (value : JStr) : List (String × JStr) :=
  store.map (fun kv => if kv.1 = key then (kv.1, value) else kv)

/-- The `PUT /api/settings` loop (`src/server.ts`): for each body entry
in order, store `validateNumber(value, 0).toString()` under its key. -/
def putSettings (store : List (String × JStr)) :
    List (String × JStr) → List (String × JStr)
  | [] => store
  | kv :: rest =>
      putSettings
        (dbUpdateSetting store kv.1 (numToString (validateNumber kv.2 0))) rest

/-- The value a key holds after `putSettings` with the given body, given
its prior value `v` (helper for stating the round-trip lemmas). -/
def putValue (body : List (String × JStr)) (k : String) (v : JStr) : JStr :=
  match List.lookup k body with
  | some w => numToString (validateNumber w 0)
  | none => v

/-- The client `updateSettings` request body: each numeric setting
encoded as a string, an explicit `'0'` for zero. -/
def updateSettingsBody (settings : List (String × ℚ)) :
    List (String × JStr) :=
  settings.map (fun kv => (kv.1, encodeSetting kv.2))

/-- The client `fetchSettings`: the stored string rows, each value
coerced back by `parseFloat(value) || 0`. -/
def fetchSettings (store : List (String × JStr)) : List (String × ℚ) :=
  store.map (fun kv => (kv.1, parseFloatOrZero kv.2))

/-- A concrete one-row settings table used as witness input. -/
def demoStore : List (String × JStr) := [("hourly_rate", some 25)]

end SIMS

namespace SIMS

/-- The accumulating `forEach` loop computes, from any starting pair, the
starting pair plus the two sums. -/
lemma filamentTotals_foldl (s : Settings) (fs : List ProductFilament)
    (init : ℚ × ℚ) :
    fs.foldl
      (fun acc f =>
        (acc.1 + amountOrZero f,
         acc.2 + (amountOrZero f / 1000) * costOrFallback s f))
      init
    = (init.1 + (fs.map amountOrZero).sum,
       init.2 + (fs.map (fun f => (amountOrZero f / 1000) * costOrFallback s f)).sum) := by
  induction fs generalizing init with
  | nil => simp
  | cons f rest ih =>
      simp only [List.foldl_cons, List.map_cons, List.sum_cons, ih]
      rw [Prod.mk.injEq]
      constructor <;> ring

/-- `filamentTotals` is the pair of sums over the association list. -/
lemma filamentTotals_eq (s : Settings) (fs : List ProductFilament) :
    filamentTotals s fs
      = ((fs.map amountOrZero).sum,
         (fs.map (fun f => (amountOrZero f / 1000) * costOrFallback s f)).sum) := by
  rw [filamentTotals, filamentTotals_foldl]
  simp

/-- With a nonempty association list, the calculator's filament outputs
are the two per-association sums (shared characterization lemma). -/
lemma filament_outputs_of_assoc (p : Product) (s : Settings)
    (fs : List ProductFilament) (hfs : p.filaments = some fs) (hne : fs ≠ []) :
    (calculateProductMargins p s).filament_used = (fs.map amountOrZero).sum ∧
    (calculateProductMargins p s).filament_cost
      = (fs.map (fun f => (amountOrZero f / 1000) * costOrFallback s f)).sum := by
  have hlen : fs.length > 0 := List.length_pos.mpr hne
  constructor <;>
    simp [calculateProductMargins, hfs, hlen, filamentTotals_eq]

/-- The suggested price is the total cost divided by the margin
denominator (shared characterization lemma). -/
lemma suggested_price_eq (p : Product) (s : Settings) :
    (calculateProductMargins p s).suggested_price
      = (calculateProductMargins p s).total_cost /
          (1 - s.desired_profit_margin / 100 - s.platform_fees / 100) := by
  simp [calculateProductMargins]

/-- The selling price is the list price when positive, else the
suggested price (shared characterization lemma). -/
lemma selling_price_eq (p : Product) (s : Settings) :
    (calculateProductMargins p s).selling_price
      = if p.list_price > 0 then p.list_price
        else (calculateProductMargins p s).suggested_price := by
  by_cases h : p.list_price > 0 <;> simp [calculateProductMargins, h]

/-- C1: the selling price is the list price when that is positive, and
otherwise (list price zero) it is the suggested price, which is
`total_cost / (1 - desired_profit_margin/100 - platform_fees/100)`. -/
theorem selling_price_spec (p : Product) (s : Settings) :
    (p.list_price > 0 →
      (calculateProductMargins p s).selling_price = p.list_price) ∧
    (p.list_price = 0 →
      (calculateProductMargins p s).selling_price
        = (calculateProductMargins p s).suggested_price) ∧
    (calculateProductMargins p s).suggested_price
      = (calculateProductMargins p s).total_cost /
          (1 - s.desired_profit_margin / 100 - s.platform_fees / 100) := by
  refine ⟨fun h => ?_, fun h => ?_, ?_⟩
  · simp [calculateProductMargins, h]
  · simp [calculateProductMargins, h]
  · simp [calculateProductMargins]

/-- Witness for C1: both branches evaluated at concrete inputs. -/
theorem selling_price_spec_witness :
    (calculateProductMargins { exampleProduct with list_price := 42 }
        exampleSettings).selling_price = 42 ∧
    (calculateProductMargins exampleProduct exampleSettings).selling_price
      = (calculateProductMargins exampleProduct exampleSettings).suggested_price :=
  ⟨(selling_price_spec { exampleProduct with list_price := 42 }
      exampleSettings).1 (by norm_num),
   (selling_price_spec exampleProduct exampleSettings).2.1 rfl⟩

/-- C2: the total cost is the sum of labor, filament, wear-and-tear,
additional parts and packaging costs; labor cost converts minutes to
hours at the hourly rate; wear-and-tear is a percentage markup on the
filament cost. -/
theorem total_cost_spec (p : Product) (s : Settings) :
    (calculateProductMargins p s).total_cost
      = (calculateProductMargins p s).labor_cost
        + (calculateProductMargins p s).filament_cost
        + (calculateProductMargins p s).wear_tear_cost
        + p.additional_parts_cost + s.packaging_cost ∧
    (calculateProductMargins p s).labor_cost
      = (p.print_prep_time + p.post_processing_time) / 60 * s.hourly_rate ∧
    (calculateProductMargins p s).wear_tear_cost
      = (calculateProductMargins p s).filament_cost * (s.wear_tear_markup / 100) := by
  refine ⟨?_, ?_, ?_⟩ <;> simp [calculateProductMargins]

/-- C9: platform fee amount, gross profit and profit margin formulas;
the profit margin is `0` whenever the selling price is not positive, in
particular when it is `0`. -/
theorem profit_margin_spec (p : Product) (s : Settings) :
    (calculateProductMargins p s).platform_fee_amount
      = (calculateProductMargins p s).selling_price * (s.platform_fees / 100) ∧
    (calculateProductMargins p s).gross_profit
      = (calculateProductMargins p s).selling_price
        - (calculateProductMargins p s).total_cost
        - (calculateProductMargins p s).platform_fee_amount ∧
    ((calculateProductMargins p s).selling_price > 0 →
      (calculateProductMargins p s).profit_margin
        = (calculateProductMargins p s).gross_profit /
            (calculateProductMargins p s).selling_price * 100) ∧
    ((calculateProductMargins p s).selling_price ≤ 0 →
      (calculateProductMargins p s).profit_margin = 0) := by
  refine ⟨?_, ?_, fun h => ?_, fun h => ?_⟩
  · simp [calculateProductMargins]
  · simp [calculateProductMargins]
  · simp only [calculateProductMargins] at h ⊢
    rw [if_pos h]
  · simp only [calculateProductMargins] at h ⊢
    rw [if_neg (not_lt.mpr h)]

/-- Witness for C9: concrete evaluation of both conditional branches. -/
theorem profit_margin_spec_witness :
    (calculateProductMargins exampleProduct exampleSettings).profit_margin
      = (calculateProductMargins exampleProduct exampleSettings).gross_profit /
          (calculateProductMargins exampleProduct exampleSettings).selling_price * 100 ∧
    (calculateProductMargins zeroProduct
        { exampleSettings with packaging_cost := 0 }).profit_margin = 0 :=
  ⟨(profit_margin_spec exampleProduct exampleSettings).2.2.1
    (by norm_num [calculateProductMargins, filamentTotals, amountOrZero,
      costOrFallback, exampleProduct, exampleSettings]),
   (profit_margin_spec _ _).2.2.2
    (by norm_num [calculateProductMargins, zeroProduct, exampleSettings])⟩

/-- C3: with at least one filament association, the output
`filament_used` is the sum of the associations' usage amounts and
`filament_cost` is the sum of per-association
`(grams/1000) * (per-kg cost if set, else the global spool price)`. -/
theorem filament_cost_assoc_spec (p : Product) (s : Settings)
    (fs : List ProductFilament) (hfs : p.filaments = some fs) (hne : fs ≠ []) :
    (calculateProductMargins p s).filament_used = (fs.map amountOrZero).sum ∧
    (calculateProductMargins p s).filament_cost
      = (fs.map (fun f => (amountOrZero f / 1000) * costOrFallback s f)).sum :=
  filament_outputs_of_assoc p s fs hfs hne

/-- Witness for C3: the spec's worked example, one 100 g association at
the fallback spool price of 18 per kg. -/
theorem filament_cost_assoc_spec_witness :
    (calculateProductMargins exampleProduct exampleSettings).filament_used = 100 ∧
    (calculateProductMargins exampleProduct exampleSettings).filament_cost = 9/5 := by
  obtain ⟨h1, h2⟩ := filament_cost_assoc_spec exampleProduct exampleSettings
    [{ filament_usage_amount := some 100, cost := none }] rfl (by simp)
  refine ⟨h1.trans ?_, h2.trans ?_⟩ <;>
    norm_num [amountOrZero, costOrFallback, exampleSettings]

/-- C4: with no filament associations (absent or empty list), the output
`filament_used` is the product's legacy `filament_used` field and
`filament_cost` is `(filament_used/1000) * filament_spool_price`. -/
theorem filament_cost_fallback_spec (p : Product) (s : Settings)
    (h : p.filaments = none ∨ p.filaments = some []) :
    (calculateProductMargins p s).filament_used = p.filament_used ∧
    (calculateProductMargins p s).filament_cost
      = (p.filament_used / 1000) * s.filament_spool_price := by
  rcases h with h | h <;> constructor <;> simp [calculateProductMargins, h]

/-- Witness for C4: a product with an empty association list and 250 g
legacy usage at 18 per kg costs 4.5. -/
theorem filament_cost_fallback_spec_witness :
    (calculateProductMargins { zeroProduct with filament_used := 250 }
        exampleSettings).filament_used = 250 ∧
    (calculateProductMargins { zeroProduct with filament_used := 250 }
        exampleSettings).filament_cost = 9/2 := by
  obtain ⟨h1, h2⟩ := filament_cost_fallback_spec
    { zeroProduct with filament_used := 250 } exampleSettings
    (Or.inr rfl)
  refine ⟨h1.trans ?_, h2.trans ?_⟩ <;> norm_num [zeroProduct, exampleSettings]

/-- C10: per association, a cost of `0`, `null` or `undefined` is charged
at the global spool price (JS `||` treats an explicit `0` cost as unset),
and a missing usage amount counts as `0` grams; the filament cost is the
sum of these per-association charges. -/
theorem filament_falsy_cost_spec (p : Product) (s : Settings)
    (fs : List ProductFilament) (hfs : p.filaments = some fs) (hne : fs ≠ []) :
    (calculateProductMargins p s).filament_cost
      = (fs.map (fun f => (amountOrZero f / 1000) * costOrFallback s f)).sum ∧
    (∀ f : ProductFilament, f.cost = some 0 ∨ f.cost = none →
      costOrFallback s f = s.filament_spool_price) ∧
    (∀ f : ProductFilament, f.filament_usage_amount = none →
      amountOrZero f = 0) := by
  refine ⟨(filament_outputs_of_assoc p s fs hfs hne).2, ?_, ?_⟩
  · rintro f (hc | hc) <;> simp [costOrFallback, hc]
  · intro f ha
    simp [amountOrZero, ha]

/-- Witness for C10: an association with an explicit cost of `0` and a
missing usage amount, next to a 100 g association with explicit cost 25:
the zero-cost association is billed at the spool price. -/
theorem filament_falsy_cost_spec_witness :
    (calculateProductMargins
        { zeroProduct with
            filaments := some [{ filament_usage_amount := some 200, cost := some 0 },
              { filament_usage_amount := none, cost := some 25 }] }
        exampleSettings).filament_cost = 18/5 :=
  ((filament_falsy_cost_spec _ exampleSettings
      [{ filament_usage_amount := some 200, cost := some 0 },
        { filament_usage_amount := none, cost := some 25 }] rfl (by simp)).1).trans
    (by norm_num [amountOrZero, costOrFallback, exampleSettings])

/-- C5 counterexample: with `desired_profit_margin + platform_fees ≥ 100`
the calculation does not fail — `calculateProductMargins` is total and
here silently returns a negative suggested and selling price, contrary
to the claimed error condition. -/
theorem unachievable_margin_counterexample :
    badSettings.desired_profit_margin + badSettings.platform_fees ≥ 100 ∧
    (calculateProductMargins exampleProduct badSettings).suggested_price < 0 ∧
    (calculateProductMargins exampleProduct badSettings).selling_price < 0 := by
  refine ⟨by norm_num [badSettings, exampleSettings], ?_, ?_⟩ <;>
    norm_num [calculateProductMargins, filamentTotals, amountOrZero,
      costOrFallback, exampleProduct, badSettings, exampleSettings]

/-- C5 amended: the source has no guard for an unachievable margin
configuration; whenever `desired_profit_margin + platform_fees > 100`
and the computed total cost is positive, the suggested price is negative,
and it becomes the (negative) selling price whenever the list price is
not positive. -/
theorem unachievable_margin_spec (p : Product) (s : Settings)
    (h : s.desired_profit_margin + s.platform_fees > 100)
    (hc : (calculateProductMargins p s).total_cost > 0) :
    (calculateProductMargins p s).suggested_price < 0 ∧
    (p.list_price ≤ 0 → (calculateProductMargins p s).selling_price < 0) := by
  have hden : 1 - s.desired_profit_margin / 100 - s.platform_fees / 100 < 0 := by
    linarith
  have hsug : (calculateProductMargins p s).suggested_price < 0 := by
    rw [suggested_price_eq]
    exact div_neg_of_pos_of_neg hc hden
  refine ⟨hsug, fun hl => ?_⟩
  rw [selling_price_eq, if_neg (not_lt.mpr hl)]
  exact hsug

/-- Witness for the amended C5, at the concrete bad configuration. -/
theorem unachievable_margin_spec_witness :
    (calculateProductMargins exampleProduct badSettings).suggested_price < 0 ∧
    (calculateProductMargins exampleProduct badSettings).selling_price < 0 := by
  obtain ⟨h1, h2⟩ := unachievable_margin_spec exampleProduct badSettings
    (by norm_num [badSettings, exampleSettings])
    (by norm_num [calculateProductMargins, filamentTotals, amountOrZero,
      costOrFallback, exampleProduct, badSettings, exampleSettings])
  exact ⟨h1, h2 (by norm_num [exampleProduct])⟩

/-- If some requested id has no row, the validation loop reports a
missing id that is indeed requested and absent. -/
lemma firstMissing_of_missing (queue : List QueueItem) :
    ∀ ids : List ℤ, (∃ id ∈ ids, ∀ q ∈ queue, q.id ≠ id) →
      ∃ m ∈ ids, firstMissing queue ids = some m ∧ ∀ q ∈ queue, q.id ≠ m := by
  intro ids
  induction ids with
  | nil => rintro ⟨id, hid, -⟩; exact absurd hid (List.not_mem_nil id)
  | cons a rest ih =>
      rintro ⟨id, hid, hmiss⟩
      by_cases hq : queue.any (fun q => q.id == a)
      · have hne : id ≠ a := by
          rintro rfl
          obtain ⟨q, hqmem, hqid⟩ := List.any_eq_true.mp hq
          exact hmiss q hqmem (by simpa using hqid)
        have hidr : id ∈ rest := by
          rcases List.mem_cons.mp hid with h | h
          · exact absurd h hne
          · exact h
        obtain ⟨m, hm, heq, hmm⟩ := ih ⟨id, hidr, hmiss⟩
        exact ⟨m, List.mem_cons_of_mem a hm, by simpa [firstMissing, hq] using heq, hmm⟩
      · refine ⟨a, List.mem_cons_self a rest, by simp [firstMissing, hq], ?_⟩
        intro q hqmem hqa
        exact hq (List.any_eq_true.mpr ⟨q, hqmem, by simpa using hqa⟩)

/-- If every requested id has a row, validation succeeds. -/
lemma firstMissing_eq_none (queue : List QueueItem) :
    ∀ ids : List ℤ, (∀ id ∈ ids, ∃ q ∈ queue, q.id = id) →
      firstMissing queue ids = none := by
  intro ids
  induction ids with
  | nil => intro; rfl
  | cons a rest ih =>
      intro h
      obtain ⟨q, hqmem, hqa⟩ := h a (List.mem_cons_self a rest)
      have hq : queue.any (fun q => q.id == a) := by
        exact List.any_eq_true.mpr ⟨q, hqmem, by simpa using hqa⟩
      simp only [firstMissing, hq, if_true]
      exact ih fun id hid => h id (List.mem_cons_of_mem a hid)

/-- C6: when any requested id has no queue row, the reorder endpoint
fails naming a missing id and leaves every row's position unchanged
(the whole prior queue state is retained). -/
theorem reorder_atomic_failure (queue : List QueueItem) (ids : List ℤ)
    (h : ∃ id ∈ ids, ∀ q ∈ queue, q.id ≠ id) :
    (reorder queue ids).queue = queue ∧
    ∃ m ∈ ids, (reorder queue ids).error = some m ∧ ∀ q ∈ queue, q.id ≠ m := by
  obtain ⟨m, hm, heq, hmm⟩ := firstMissing_of_missing queue ids h
  rw [reorder, heq]
  exact ⟨rfl, m, hm, rfl, hmm⟩

/-- Witness for C6: requesting ids `[2, 5, 1]` against the three-row
queue (ids 1, 2, 3) fails on id 5 and changes nothing. -/
theorem reorder_atomic_failure_witness :
    (reorder demoQueue [2, 5, 1]).queue = demoQueue ∧
    ∃ m ∈ [(2 : ℤ), 5, 1], (reorder demoQueue [2, 5, 1]).error = some m ∧
      ∀ q ∈ demoQueue, q.id ≠ m :=
  reorder_atomic_failure demoQueue [2, 5, 1] ⟨5, by decide, by decide⟩

/-- The sequential update loop, started at index `i` with distinct ids,
rewrites each targeted row's position to `i` plus the id's index in the
request and leaves other rows alone. -/
lemma applyUpdates_eq (ids : List ℤ) (queue : List QueueItem) (i : ℕ)
    (hn : ids.Nodup) :
    applyUpdates queue i ids
      = queue.map (fun q =>
          if q.id ∈ ids then
            { q with position := ((i + firstIdx q.id ids : ℕ) : ℤ) }
          else q) := by
  induction ids generalizing queue i with
  | nil => simp [applyUpdates]
  | cons a rest ih =>
      rw [List.nodup_cons] at hn
      obtain ⟨ha, hrest⟩ := hn
      simp only [applyUpdates]
      rw [ih (updateOne queue (i : ℤ) a) (i + 1) hrest, updateOne,
        List.map_map]
      congr 1
      funext q
      by_cases hq : q.id = a
      · simp [Function.comp, hq, ha, firstIdx]
      · have hmem : q.id ∈ a :: rest ↔ q.id ∈ rest := by
          simp [List.mem_cons, hq]
        have hax : ¬ a = q.id := fun h => hq h.symm
        have hfi : firstIdx q.id (a :: rest) = firstIdx q.id rest + 1 := by
          simp [firstIdx, hax]
        by_cases hr : q.id ∈ rest
        · have harith : (i + 1) + firstIdx q.id rest
              = i + firstIdx q.id (a :: rest) := by
            rw [hfi]; omega
          simp only [Function.comp, if_neg hq, if_pos hr,
            if_pos (hmem.mpr hr), harith]
        · simp only [Function.comp, if_neg hq, if_neg hr,
            if_neg (fun h => hr (hmem.mp h))]

/-- Mapping each distinct id to its own first index enumerates
`0, 1, …, n-1` in order. -/
lemma firstIdx_map_self : ∀ ids : List ℤ, ids.Nodup →
    ids.map (fun x => firstIdx x ids) = List.range ids.length := by
  intro ids
  induction ids with
  | nil => intro; rfl
  | cons a rest ih =>
      intro hn
      rw [List.nodup_cons] at hn
      obtain ⟨ha, hrest⟩ := hn
      have hhead : firstIdx a (a :: rest) = 0 := by simp [firstIdx]
      have htail : rest.map (fun x => firstIdx x (a :: rest))
          = (rest.map (fun x => firstIdx x rest)).map (· + 1) := by
        rw [List.map_map]
        refine List.map_congr_left fun x hx => ?_
        have hax : a ≠ x := fun h => ha (h ▸ hx)
        simp [Function.comp, firstIdx, hax]
      rw [List.map_cons, hhead, htail, ih hrest, List.length_cons,
        List.range_succ_eq_map]

/-- C7: with distinct requested ids that all exist, the reorder endpoint
succeeds; each requested row's position becomes the id's 0-based index in
the request and unrequested rows keep their prior position; and when the
request covers the whole queue (of rows with distinct ids), the
resulting positions are exactly a permutation of `0 … n-1`. -/
theorem reorder_success_spec (queue : List QueueItem) (ids : List ℤ)
    (hn : ids.Nodup) (hex : ∀ id ∈ ids, ∃ q ∈ queue, q.id = id) :
    (reorder queue ids).error = none ∧
    (reorder queue ids).queue
      = queue.map (fun q =>
          if q.id ∈ ids then { q with position := (firstIdx q.id ids : ℤ) }
          else q) ∧
    ((∀ q ∈ queue, q.id ∈ ids) → (queue.map QueueItem.id).Nodup →
      ((reorder queue ids).queue.map QueueItem.position).Perm
        ((List.range queue.length).map (fun k : ℕ => (k : ℤ)))) := by
  have hnone := firstMissing_eq_none queue ids hex
  have hqueue : (reorder queue ids).queue
      = queue.map (fun q =>
          if q.id ∈ ids then { q with position := (firstIdx q.id ids : ℤ) }
          else q) := by
    rw [reorder, hnone]
    simpa using applyUpdates_eq ids queue 0 hn
  refine ⟨by rw [reorder, hnone], hqueue, fun hcover hqn => ?_⟩
  have hperm : (queue.map QueueItem.id).Perm ids :=
    (List.perm_ext_iff_of_nodup hqn hn).mpr (fun x => by
      constructor
      · rintro hx
        obtain ⟨q, hqmem, rfl⟩ := List.mem_map.mp hx
        exact hcover q hqmem
      · intro hx
        obtain ⟨q, hqmem, hqid⟩ := hex x hx
        exact List.mem_map.mpr ⟨q, hqmem, hqid⟩)
  have hlen : queue.length = ids.length := by
    simpa using hperm.length_eq
  have hpos : (reorder queue ids).queue.map QueueItem.position
      = (queue.map QueueItem.id).map (fun x => (firstIdx x ids : ℤ)) := by
    rw [hqueue, List.map_map, List.map_map]
    refine List.map_congr_left fun q hq => ?_
    simp [Function.comp, hcover q hq]
  have h2 : (ids.map (fun x => firstIdx x ids)).map (fun k : ℕ => (k : ℤ))
      = ids.map (fun x => (firstIdx x ids : ℤ)) := by
    rw [List.map_map]; rfl
  rw [hpos, hlen, ← firstIdx_map_self ids hn, h2]
  exact hperm.map _

/-- Witness for C7: reordering the three-row queue to `[3, 1, 2]`
succeeds, assigns positions 1, 2, 0 to ids 1, 2, 3, and the positions
form a permutation of `0, 1, 2`. -/
theorem reorder_success_spec_witness :
    (reorder demoQueue [3, 1, 2]).error = none ∧
    (reorder demoQueue [3, 1, 2]).queue
      = [{ id := 1, position := 1 }, { id := 2, position := 2 },
         { id := 3, position := 0 }] ∧
    ((reorder demoQueue [3, 1, 2]).queue.map QueueItem.position).Perm
      ((List.range demoQueue.length).map (fun k : ℕ => (k : ℤ))) := by
  obtain ⟨h1, h2, h3⟩ := reorder_success_spec demoQueue [3, 1, 2]
    (by decide) (by decide)
  exact ⟨h1, h2.trans (by decide), h3 (by decide) (by decide)⟩

/-- Looking a key up after a key-preserving value transformation yields
the transformed original value. -/
lemma lookup_map_snd {α β : Type} (g : String → α → β) (k : String) :
    ∀ l : List (String × α),
      List.lookup k (l.map (fun kv => (kv.1, g kv.1 kv.2)))
        = (List.lookup k l).map (g k) := by
  intro l
  induction l with
  | nil => rfl
  | cons kv rest ih =>
      by_cases h : k = kv.1
      · simp [List.lookup, h]
      · have hb : (k == kv.1) = false := beq_eq_false_iff_ne.mpr h
        simp [List.lookup, hb, ih]

/-- A key absent from a pair list has no lookup result. -/
lemma lookup_none_of_not_mem_keys {α : Type} (k : String) :
    ∀ l : List (String × α), k ∉ l.map Prod.fst → List.lookup k l = none := by
  intro l
  induction l with
  | nil => intro; rfl
  | cons kv rest ih =>
      intro h
      rw [List.map_cons, List.mem_cons] at h
      push_neg at h
      have hb : (k == kv.1) = false := beq_eq_false_iff_ne.mpr h.1
      simp [List.lookup, hb, ih h.2]

/-- With distinct keys, lookup finds exactly the paired value. -/
lemma lookup_of_mem_nodup {α : Type} (k : String) (q : α) :
    ∀ l : List (String × α), (l.map Prod.fst).Nodup → (k, q) ∈ l →
      List.lookup k l = some q := by
  intro l
  induction l with
  | nil => intro _ h; exact absurd h (List.not_mem_nil _)
  | cons kv rest ih =>
      intro hn hmem
      rw [List.map_cons, List.nodup_cons] at hn
      rcases List.mem_cons.mp hmem with h | h
      · rw [← h]
        simp [List.lookup]
      · have hk : k ≠ kv.1 := by
          rintro rfl
          exact hn.1 (List.mem_map.mpr ⟨_, h, rfl⟩)
        have hb : (k == kv.1) = false := beq_eq_false_iff_ne.mpr hk
        simp [List.lookup, hb, ih hn.2 h]

/-- A key present in a pair list has a lookup result. -/
lemma exists_lookup_of_mem_keys {α : Type} (k : String) :
    ∀ l : List (String × α), k ∈ l.map Prod.fst →
      ∃ v, List.lookup k l = some v := by
  intro l
  induction l with
  | nil => intro h; exact absurd h (List.not_mem_nil _)
  | cons kv rest ih =>
      intro h
      by_cases hk : k = kv.1
      · exact ⟨kv.2, by simp [List.lookup, hk]⟩
      · rw [List.map_cons, List.mem_cons] at h
        rcases h with h | h
        · exact absurd h hk
        · obtain ⟨v, hv⟩ := ih h
          have hb : (k == kv.1) = false := beq_eq_false_iff_ne.mpr hk
          exact ⟨v, by simp [List.lookup, hb, hv]⟩

/-- With distinct body keys, the settings `PUT` loop rewrites every
stored row whose key appears in the body to the body's (validated,
re-stringified) value and keeps the other rows. -/
lemma putSettings_eq :
    ∀ body : List (String × JStr), (body.map Prod.fst).Nodup →
      ∀ store : List (String × JStr),
        putSettings store body
          = store.map (fun kv => (kv.1, putValue body kv.1 kv.2)) := by
  intro body
  induction body with
  | nil =>
      intro _ store
      simp [putSettings, putValue, List.lookup]
  | cons b rest ih =>
      intro hn store
      rw [List.map_cons, List.nodup_cons] at hn
      rw [putSettings, ih hn.2, dbUpdateSetting, List.map_map]
      congr 1
      funext kv
      by_cases hk : kv.1 = b.1
      · have hnone : List.lookup b.1 rest = none :=
          lookup_none_of_not_mem_keys b.1 rest hn.1
        simp [Function.comp, hk, putValue, List.lookup, hnone]
      · have hb : (kv.1 == b.1) = false := beq_eq_false_iff_ne.mpr hk
        simp [Function.comp, hk, putValue, List.lookup, hb]

/-- Decoding the stored form of an encoded setting value recovers it,
including the literal `0`. -/
lemma decode_encode (q : ℚ) :
    parseFloatOrZero (numToString (validateNumber (encodeSetting q) 0)) = q := by
  by_cases h : q = 0 <;>
    simp [encodeSetting, numToString, validateNumber, parseFloatOrZero, h]

/-- C8: the settings write-then-read round trip preserves every value,
including the literal `0`: after `updateSettings` sends the stringified
map and the server stores the validated strings, `fetchSettings` coerces
the stored string back to the original number for every key that exists
in the settings table. -/
theorem settings_round_trip (store : List (String × JStr))
    (m : List (String × ℚ)) (k : String) (q : ℚ)
    (hm : (m.map Prod.fst).Nodup) (hkq : (k, q) ∈ m)
    (hk : k ∈ store.map Prod.fst) :
    List.lookup k (fetchSettings (putSettings store (updateSettingsBody m)))
      = some q := by
  have hmb : ((updateSettingsBody m).map Prod.fst).Nodup := by
    simpa [updateSettingsBody, List.map_map, Function.comp] using hm
  have h1 : fetchSettings (putSettings store (updateSettingsBody m))
      = store.map (fun kv =>
          (kv.1, parseFloatOrZero (putValue (updateSettingsBody m) kv.1 kv.2))) := by
    rw [putSettings_eq _ hmb store, fetchSettings, List.map_map]
    rfl
  obtain ⟨v0, hv0⟩ := exists_lookup_of_mem_keys k store hk
  have hbody : List.lookup k (updateSettingsBody m) = some (encodeSetting q) := by
    rw [updateSettingsBody, lookup_map_snd (fun _ v => encodeSetting v) k m,
      lookup_of_mem_nodup k q m hm hkq]
    rfl
  rw [h1, lookup_map_snd (fun k v =>
    parseFloatOrZero (putValue (updateSettingsBody m) k v)) k store, hv0]
  simp [putValue, hbody, decode_encode]

/-- Witness for C8: writing `hourly_rate := 0` into a table previously
holding `25` and reading it back yields exactly `0`. -/
theorem settings_round_trip_witness :
    List.lookup "hourly_rate"
      (fetchSettings (putSettings demoStore
        (updateSettingsBody [("hourly_rate", 0)]))) = some 0 :=
  settings_round_trip demoStore [("hourly_rate", 0)] "hourly_rate" 0
    (by simp) (by simp) (by simp [demoStore])

end SIMS
